import Mathlib

/-!
# Emojivoto: start-up configuration, fault injection and the vote-bot loop

A shallow embedding of the parts of the emojivoto repository that read their
configuration from the environment and act on it:

* `emojivoto-voting-svc/cmd/server.go`: `setFailureRateOrDefault`,
  `setArtificialDelayOrDefault` and the wiring in `main`;
* `emojivoto-web/cmd/vote-bot/main.go`: the `TTL` and `REQUEST_RATE` settings,
  the deadline check, the sleep interval, `shortcodes` and the vote selection.

The Go standard-library functions these call (`strconv.Atoi`,
`strconv.ParseFloat`, `time.ParseDuration`, `rand.Intn`) are modelled after the
Go sources in the namespace `Go`; the functions of the repository take the
parsers as arguments, so that every general statement holds for whatever the
library returns, and the models are used where a concrete input is evaluated.

Integers of Go are `Int`/`Nat` with explicit wrap-around at the width of the Go
type; `int` is 64 bits wide (`strconv.IntSize = 64`).
-/

namespace Go

/-! ## Strings as byte sequences -/

/-- UTF-8 encoding of one code point, as a list of byte values. -/
def utf8Encode (c : Nat) : List Nat :=
  if c < 0x80 then [c]
  else if c < 0x800 then [0xC0 + c / 64, 0x80 + c % 64]
  else if c < 0x10000 then [0xE0 + c / 4096, 0x80 + (c / 64) % 64, 0x80 + c % 64]
  else [0xF0 + c / 262144, 0x80 + (c / 4096) % 64, 0x80 + (c / 64) % 64, 0x80 + c % 64]

/-- The bytes of a string: Go indexes and measures strings by byte. -/
def bytes (s : String) : List Nat :=
  s.data.flatMap (fun c => utf8Encode c.toNat)

/-- Byte predicate `'0' <= c && c <= '9'`. -/
def isDigit (c : Nat) : Bool := decide (48 ≤ c) && decide (c ≤ 57)

/-- The helper `lower` of strconv: `c | ('x' - 'X')`. -/
def lower (c : Nat) : Nat := c ||| 32

/-! ## strconv: integers -/

/-- The two error kinds of `strconv.NumError` that a base-10 parse can return. -/
inductive NumError where
  | ErrSyntax
  | ErrRange
  deriving DecidableEq, Repr

/-- Size of `int` in bits (`strconv.IntSize`). -/
def IntSize : Nat := 64

/-- Largest `uint64`. -/
def maxUint64 : Nat := 2 ^ 64 - 1

/-- The digit loop of `strconv.ParseUint` for a base in 2..36 (no underscores: they are
accepted for base 0 only). It stops at the first overflow with `maxVal` and `ErrRange`, and
at the first byte that is not a digit of the base with `0` and `ErrSyntax`. -/
def parseUintLoop (base cutoff maxVal : Nat) : List Nat → Nat → Nat × Option NumError
  | [], n => (n, none)
  | c :: cs, n =>
    let d? : Option Nat :=
      if isDigit c then some (c - 48)
      else if 97 ≤ lower c ∧ lower c ≤ 122 then some (lower c - 97 + 10)
      else none
    match d? with
    | none => (0, some NumError.ErrSyntax)
    | some d =>
      if d ≥ base then (0, some NumError.ErrSyntax)
      else if n ≥ cutoff then (maxVal, some NumError.ErrRange)
      else
        let n10 := (n * base) % 2 ^ 64
        let n1 := (n10 + d) % 2 ^ 64
        if n1 < n10 ∨ n1 > maxVal then (maxVal, some NumError.ErrRange)
        else parseUintLoop base cutoff maxVal cs n1

/-- The call `strconv.ParseUint(s, 10, bitSize)`, `s` given by its bytes; `bitSize = 0`
stands for `IntSize`. -/
def ParseUint10 (s : List Nat) (bitSize : Nat) : Nat × Option NumError :=
  if s = [] then (0, some NumError.ErrSyntax)
  else
    let bitSize := if bitSize = 0 then IntSize else bitSize
    let cutoff := maxUint64 / 10 + 1
    let maxVal := 2 ^ bitSize - 1
    parseUintLoop 10 cutoff maxVal s 0

/-- The call `strconv.ParseInt(s, 10, bitSize)`: on a range error the result is the
integer of largest magnitude of that sign, not zero. -/
def ParseInt10 (s : List Nat) (bitSize : Nat) : Int × Option NumError :=
  match s with
  | [] => (0, some NumError.ErrSyntax)
  | c :: rest =>
    let neg := c = 45
    let digits := if c = 43 ∨ c = 45 then rest else s
    match ParseUint10 digits bitSize with
    | (_, some NumError.ErrSyntax) => (0, some NumError.ErrSyntax)
    | (un, _) =>
      let bitSize := if bitSize = 0 then IntSize else bitSize
      let cutoff : Nat := 2 ^ (bitSize - 1)
      if ¬ neg ∧ un ≥ cutoff then ((cutoff : Int) - 1, some NumError.ErrRange)
      else if neg ∧ un > cutoff then (-(cutoff : Int), some NumError.ErrRange)
      else (if neg then -(un : Int) else (un : Int), none)

/-- The loop of the fast path of `strconv.Atoi`: `none` at the first byte that is not a
decimal digit. -/
def atoiFast : List Nat → Int → Option Int
  | [], n => some n
  | ch :: rest, n => if isDigit ch then atoiFast rest (n * 10 + ((ch - 48 : Nat) : Int)) else none

/-- The function `strconv.Atoi` with 64-bit `int`: strings of 1 to 18 bytes take the fast
path, all others go through `ParseInt(s, 10, 0)`. -/
def strconv.Atoi (s : String) : Int × Option NumError :=
  let b := bytes s
  if 0 < b.length ∧ b.length < 19 then
    match b with
    | [] => (0, some NumError.ErrSyntax)
    | c :: rest =>
      let signed := c = 45 ∨ c = 43
      let digits := if signed then rest else b
      if signed ∧ digits.length < 1 then (0, some NumError.ErrSyntax)
      else
        match atoiFast digits 0 with
        | none => (0, some NumError.ErrSyntax)
        | some n => (if c = 45 then -n else n, none)
  else ParseInt10 b 0

/-! ## Floating-point values -/

/-- A float64 value: not-a-number, an infinity, or the finite value
`(-1)^neg * mant * 2^exp`. Finite values are kept with an odd mantissa (zero as
`mant = 0`, `exp = 0`), so that equal numbers of equal sign are equal terms. -/
inductive Float64 where
  | NaN
  | Inf (neg : Bool)
  | fin (neg : Bool) (mant : Nat) (exp : Int)
  deriving DecidableEq, Repr

/-- The constant `0.0`. -/
def Float64.zero : Float64 := Float64.fin false 0 0

/-- The constant `1.0`. -/
def Float64.one : Float64 := Float64.fin false 1 0

/-- Number of binary digits of `n` (0 for 0); `fuel` bounds the number of halvings. -/
def bitLenAux : Nat → Nat → Nat
  | 0, _ => 0
  | fuel + 1, n => if n = 0 then 0 else bitLenAux fuel (n / 2) + 1

/-- Number of binary digits of `n`. -/
def bitLen (n : Nat) : Nat := bitLenAux n n

/-- Removes trailing zero bits of a mantissa, raising the exponent. -/
def stripZerosAux : Nat → Nat → Int → Nat × Int
  | 0, m, e => (m, e)
  | fuel + 1, m, e => if m ≠ 0 ∧ m % 2 = 0 then stripZerosAux fuel (m / 2) (e + 1) else (m, e)

/-- The finite value `(-1)^neg * m * 2^e` in the form with an odd mantissa. -/
def Float64.ofMantExp (neg : Bool) (m : Nat) (e : Int) : Float64 :=
  if m = 0 then Float64.fin neg 0 0
  else
    let r := stripZerosAux m m e
    Float64.fin neg r.1 r.2

/-- The rational `num / den * 2^sh` as a fraction of naturals. -/
def scaleFrac (num den : Nat) (sh : Int) : Nat × Nat :=
  if 0 ≤ sh then (num * 2 ^ sh.toNat, den) else (num, den * 2 ^ (-sh).toNat)

/-- IEEE 754 rounding to nearest, ties to even, of the non-negative rational `num / den`
(`den > 0`) to a binary format with `prec` significant bits whose smallest positive value is
`2^emin`. The result `(m, e)` stands for `m * 2^e`, with `m ≤ 2^prec`; no upper bound on
the exponent is applied here. -/
def roundNearestEven (prec : Nat) (emin : Int) (num den : Nat) : Nat × Int :=
  if num = 0 then (0, 0)
  else
    let e0 : Int := (bitLen num : Int) - (bitLen den : Int)
    -- floor (log2 (num / den)) is e0 or e0 - 1
    let lo := scaleFrac num den (-e0)
    let e : Int := if lo.1 ≥ lo.2 then e0 else e0 - 1
    let q : Int := max (e - ((prec : Int) - 1)) emin
    let ab := scaleFrac num den (-q)
    let n := ab.1 / ab.2
    let r := ab.1 % ab.2
    let n := if 2 * r > ab.2 ∨ (2 * r = ab.2 ∧ n % 2 = 1) then n + 1 else n
    (n, q)

/-- Rounding of `num / den` to float32 (24 bits, smallest value `2^-149`), returned as the
float64 of the same value together with the overflow flag: a result of `2^128` or more is
an infinity. -/
def roundFloat32 (neg : Bool) (num den : Nat) : Float64 × Bool :=
  let r := roundNearestEven 24 (-149) num den
  let v := scaleFrac r.1 1 (r.2 - 128)
  if v.1 ≥ v.2 then (Float64.Inf neg, true) else (Float64.ofMantExp neg r.1 r.2, false)

/-- The conversion `float32(x)` of a float64, as the float64 of the same value. -/
def Float64.toFloat32 : Float64 → Float64
  | Float64.NaN => Float64.NaN
  | Float64.Inf neg => Float64.Inf neg
  | Float64.fin neg m e =>
    let f := scaleFrac m 1 e
    (roundFloat32 neg f.1 f.2).1

/-- The finite value of a float as a signed numerator over `2^k`, for a common `k`. -/
def Float64.scaled (neg : Bool) (m : Nat) (e base : Int) : Int :=
  let v : Int := (m : Int) * 2 ^ (e - base).toNat
  if neg then -v else v

/-- Go's `a < b` on float64: false whenever an operand is NaN. -/
def Float64.lt : Float64 → Float64 → Bool
  | Float64.NaN, _ => false
  | _, Float64.NaN => false
  | Float64.Inf n₁, Float64.Inf n₂ => n₁ && !n₂
  | Float64.Inf n₁, Float64.fin _ _ _ => n₁
  | Float64.fin _ _ _, Float64.Inf n₂ => !n₂
  | Float64.fin n₁ m₁ e₁, Float64.fin n₂ m₂ e₂ =>
    let base := min e₁ e₂
    decide (Float64.scaled n₁ m₁ e₁ base < Float64.scaled n₂ m₂ e₂ base)

/-- Go's `a > b` on float64. -/
def Float64.gt (a b : Float64) : Bool := Float64.lt b a

/-- Go's `a <= b` on float64: false whenever an operand is NaN. -/
def Float64.le : Float64 → Float64 → Bool
  | Float64.NaN, _ => false
  | _, Float64.NaN => false
  | a, b => !Float64.lt b a

/-- Rounding of `num / den` to float64 (53 bits, smallest value `2^-1074`) with the
overflow flag: a result of `2^1024` or more is an infinity. -/
def roundFloat64 (neg : Bool) (num den : Nat) : Float64 × Bool :=
  let r := roundNearestEven 53 (-1074) num den
  let v := scaleFrac r.1 1 (r.2 - 1024)
  if v.1 ≥ v.2 then (Float64.Inf neg, true) else (Float64.ofMantExp neg r.1 r.2, false)

/-! ## strconv: ParseFloat -/

/-- The helper `commonPrefixLenIgnoreCase(s, prefix)`, `prefix` in lower case. -/
def commonPrefixLenIgnoreCase : List Nat → List Nat → Nat
  | c :: cs, p :: ps =>
    let c := if 65 ≤ c ∧ c ≤ 90 then c + 32 else c
    if c ≠ p then 0 else commonPrefixLenIgnoreCase cs ps + 1
  | _, _ => 0

/-- The helper `special`: the strings `inf`, `infinity` (optionally signed) and `nan`, in any
case, at the start of `s`; the result carries the number of bytes consumed. -/
def special (s : List Nat) : Option (Float64 × Nat) :=
  let infinity := bytes "infinity"
  let inf (neg : Bool) (nsign : Nat) (t : List Nat) : Option (Float64 × Nat) :=
    let n := commonPrefixLenIgnoreCase t infinity
    let n := if 3 < n ∧ n < 8 then 3 else n
    if n = 3 ∨ n = 8 then some (Float64.Inf neg, nsign + n) else none
  match s with
  | [] => none
  | c :: rest =>
    if c = 43 ∨ c = 45 then inf (c = 45) 1 rest
    else if c = 105 ∨ c = 73 then inf false 0 s
    else if c = 110 ∨ c = 78 then
      if commonPrefixLenIgnoreCase s (bytes "nan") = 3 then some (Float64.NaN, 3) else none
    else none

/-- The scan of `underscoreOK` over the number proper; `saw` is the kind of the last byte:
`0` a digit or base prefix, `1` an underscore, `2` anything else or the beginning. -/
def underscoreScan (hex : Bool) : List Nat → Nat → Bool
  | [], saw => saw ≠ 1
  | c :: cs, saw =>
    if isDigit c ∨ (hex = true ∧ 97 ≤ lower c ∧ lower c ≤ 102) then underscoreScan hex cs 0
    else if c = 95 then
      if saw ≠ 0 then false else underscoreScan hex cs 1
    else if saw = 1 then false
    else underscoreScan hex cs 2

/-- The helper `underscoreOK`: underscores only between digits, or between a base prefix and
a digit. -/
def underscoreOK (s : List Nat) : Bool :=
  let s := match s with
    | c :: rest => if c = 45 ∨ c = 43 then rest else s
    | [] => s
  match s with
  | c₀ :: c₁ :: rest =>
    if c₀ = 48 ∧ (lower c₁ = 98 ∨ lower c₁ = 111 ∨ lower c₁ = 120) then
      underscoreScan (lower c₁ = 120) rest 0
    else underscoreScan false s 2
  | _ => underscoreScan false s 2

/-- The variables of the mantissa loop of `readFloat`. The mantissa holds every digit read
(Go keeps the first 19, or 16 in base 16, and a flag for a non-zero rest, and converts from
the full digit string when the short mantissa does not decide the rounding). -/
structure MantState where
  mantissa : Nat
  sawdot : Bool
  sawdigits : Bool
  nd : Nat
  dp : Int
  underscores : Bool
  deriving DecidableEq, Repr

/-- The mantissa loop of `readFloat`: returns the state and the unread bytes. -/
def readMantissa (base : Nat) : List Nat → MantState → MantState × List Nat
  | [], st => (st, [])
  | c :: cs, st =>
    if c = 95 then readMantissa base cs { st with underscores := true }
    else if c = 46 then
      if st.sawdot then (st, c :: cs)
      else readMantissa base cs { st with sawdot := true, dp := st.nd }
    else if isDigit c then
      if c = 48 ∧ st.nd = 0 then
        readMantissa base cs { st with sawdigits := true, dp := st.dp - 1 }
      else
        readMantissa base cs
          { st with sawdigits := true, nd := st.nd + 1, mantissa := st.mantissa * base + (c - 48) }
    else if base = 16 ∧ 97 ≤ lower c ∧ lower c ≤ 102 then
      readMantissa base cs
        { st with sawdigits := true, nd := st.nd + 1,
                  mantissa := st.mantissa * 16 + (lower c - 97 + 10) }
    else (st, c :: cs)

/-- The digits of the exponent in `readFloat`: the value stops growing at 10000. Returns the
exponent, whether an underscore was seen, and the unread bytes. -/
def readExpDigits : List Nat → Nat → Bool → Nat × Bool × List Nat
  | [], e, u => (e, u, [])
  | c :: cs, e, u =>
    if c = 95 then readExpDigits cs e true
    else if isDigit c then readExpDigits cs (if e < 10000 then e * 10 + (c - 48) else e) u
    else (e, u, c :: cs)

/-- What `readFloat` returns: the number is `(-1)^neg * mantissa * base^exp`, base 2 when
`hex` and 10 otherwise; `n` bytes were consumed; `ok` is false on a syntax error. -/
structure ReadFloat where
  mantissa : Nat
  exp : Int
  neg : Bool
  hex : Bool
  n : Nat
  ok : Bool
  deriving DecidableEq, Repr

/-- The function `readFloat` of strconv. -/
def readFloat (s : List Nat) : ReadFloat :=
  let fail (neg hex : Bool) (rest : List Nat) : ReadFloat :=
    { mantissa := 0, exp := 0, neg := neg, hex := hex, n := s.length - rest.length, ok := false }
  match s with
  | [] => fail false false s
  | c :: rest =>
    let neg := c = 45
    let t := if c = 43 ∨ c = 45 then rest else s
    let hex : Bool := match t with
      | c₀ :: c₁ :: _ :: _ => c₀ = 48 ∧ lower c₁ = 120
      | _ => false
    let t := if hex then t.drop 2 else t
    let base := if hex then 16 else 10
    let expChar := if hex then 112 else 101
    let (st, t) := readMantissa base t
      { mantissa := 0, sawdot := false, sawdigits := false, nd := 0, dp := 0,
        underscores := false }
    if ¬ st.sawdigits then fail neg hex t
    else
      let dp : Int := if st.sawdot then st.dp else st.nd
      let dp := if hex then dp * 4 else dp
      let ndMant : Int := if hex then (st.nd : Int) * 4 else st.nd
      let done (dp : Int) (underscores : Bool) (t : List Nat) : ReadFloat :=
        let n := s.length - t.length
        if underscores ∧ ¬ underscoreOK (s.take n) then fail neg hex t
        else
          { mantissa := st.mantissa, exp := if st.mantissa ≠ 0 then dp - ndMant else 0,
            neg := neg, hex := hex, n := n, ok := true }
      match t with
      | c :: t₁ =>
        if lower c = expChar then
          match t₁ with
          | [] => fail neg hex t₁
          | c₁ :: t₂ =>
            let esign : Int := if c₁ = 45 then -1 else 1
            let t₃ := if c₁ = 43 ∨ c₁ = 45 then t₂ else t₁
            match t₃ with
            | [] => fail neg hex t₃
            | c₂ :: _ =>
              if ¬ isDigit c₂ then fail neg hex t₃
              else
                let (e, u, t₄) := readExpDigits t₃ 0 st.underscores
                done (dp + (e : Int) * esign) u t₄
        else if hex then fail neg hex t
        else done dp st.underscores t
      | [] => if hex then fail neg hex t else done dp st.underscores t

/-- The functions `atof32` and `atof64` behind `parseFloatPrefix`: the value read, rounded
to nearest-even in the format of `bitSize` (32, or else 64), `ErrRange` with an infinity on
overflow, `ErrSyntax` with 0 when no number is read; with the number of bytes consumed. -/
def parseFloatPrefix (s : List Nat) (bitSize : Nat) : Float64 × Nat × Option NumError :=
  match special s with
  | some (v, n) => (v, n, none)
  | none =>
    let r := readFloat s
    if ¬ r.ok then (Float64.zero, r.n, some NumError.ErrSyntax)
    else
      let frac : Nat × Nat :=
        if r.mantissa = 0 then (0, 1)
        else if r.hex then scaleFrac r.mantissa 1 r.exp
        else if 0 ≤ r.exp then (r.mantissa * 10 ^ r.exp.toNat, 1)
        else (r.mantissa, 10 ^ (-r.exp).toNat)
      let (v, ovf) :=
        if bitSize = 32 then roundFloat32 r.neg frac.1 frac.2 else roundFloat64 r.neg frac.1 frac.2
      (v, r.n, if ovf then some NumError.ErrRange else none)

/-- The function `strconv.ParseFloat`: the whole string must be consumed. On `ErrSyntax` the
value is 0; on `ErrRange` it is the infinity of the sign of the number. -/
def strconv.ParseFloat (s : String) (bitSize : Nat) : Float64 × Option NumError :=
  let b := bytes s
  match parseFloatPrefix b bitSize with
  | (f, n, err) =>
    if n ≠ b.length ∧ err ≠ some NumError.ErrSyntax then (Float64.zero, some NumError.ErrSyntax)
    else (f, err)

/-! ## time: durations and instants -/

/-- A `time.Duration`: a signed 64-bit count of nanoseconds. -/
abbrev Duration := Int

/-- The value of `int64(x)` for an integer `x`: wrap-around into `[-2^63, 2^63)`. -/
def wrapInt64 (x : Int) : Int := (x + 2 ^ 63) % 2 ^ 64 - 2 ^ 63

/-- The constant `time.Second`. -/
def time.Second : Duration := 1000000000

/-- Errors of `time.ParseDuration`. -/
inductive DurationError where
  | invalidDuration
  | missingUnit
  | unknownUnit (u : List Nat)
  deriving DecidableEq, Repr

/-- The table `unitMap` of package time: nanoseconds per unit. -/
def unitMap (u : List Nat) : Option Nat :=
  if u = bytes "ns" then some 1
  else if u = bytes "us" then some 1000
  else if u = bytes "µs" then some 1000
  else if u = bytes "μs" then some 1000
  else if u = bytes "ms" then some 1000000
  else if u = bytes "s" then some 1000000000
  else if u = bytes "m" then some 60000000000
  else if u = bytes "h" then some 3600000000000
  else none

/-- The helper `leadingInt`: the leading `[0-9]*` of `s` and the rest; `none` is
`errLeadingInt` (the value passes `2^63`). -/
def leadingInt : List Nat → Nat → Option (Nat × List Nat)
  | [], x => some (x, [])
  | c :: cs, x =>
    if ¬ isDigit c then some (x, c :: cs)
    else if x > 2 ^ 63 / 10 then none
    else
      let x := x * 10 + (c - 48)
      if x > 2 ^ 63 then none else leadingInt cs x

/-- The product `scale * 10` of float64: rounded to nearest-even, an infinity on overflow. -/
def Float64.mulTen : Float64 → Float64
  | Float64.NaN => Float64.NaN
  | Float64.Inf neg => Float64.Inf neg
  | Float64.fin neg m e =>
    let f := scaleFrac (m * 10) 1 e
    (roundFloat64 neg f.1 f.2).1

/-- The helper `leadingFraction`: the leading `[0-9]*` of `s` as `x / scale`, digits past
the capacity of the accumulator being dropped, and the rest. `scale` is a float64, multiplied
by 10 for every digit taken up, leading zeros included: it is a power of ten up to `10^22`
and a rounded product beyond. -/
def leadingFraction : List Nat → Nat → Float64 → Bool → Nat × Float64 × List Nat
  | [], x, scale, _ => (x, scale, [])
  | c :: cs, x, scale, overflow =>
    if ¬ isDigit c then (x, scale, c :: cs)
    else if overflow then leadingFraction cs x scale true
    else if x > (2 ^ 63 - 1) / 10 then leadingFraction cs x scale true
    else
      let y := x * 10 + (c - 48)
      if y > 2 ^ 63 then leadingFraction cs x scale true
      else leadingFraction cs y (Float64.mulTen scale) false

/-- The expression `uint64(float64(f) * (float64(unit) / scale))`, for a positive `scale`:
the conversion of `f`, the quotient and the product are each rounded to float64, and the
product is truncated. The quotient by an infinite `scale` is 0. -/
def fractionNanos (f unit : Nat) (scale : Float64) : Nat :=
  match scale with
  | Float64.fin _ m e =>
    let a := roundNearestEven 53 (-1074) f 1
    let q := scaleFrac unit m (-e)
    let b := roundNearestEven 53 (-1074) q.1 q.2
    let p := scaleFrac (a.1 * b.1) 1 (a.2 + b.2)
    let c := roundNearestEven 53 (-1074) p.1 p.2
    let t := scaleFrac c.1 1 c.2
    t.1 / t.2
  | _ => 0

/-- The bytes of `s` up to the first `.` or digit (the unit), and the rest. -/
def spanUnit : List Nat → List Nat × List Nat
  | [] => ([], [])
  | c :: cs =>
    if c = 46 ∨ isDigit c then ([], c :: cs)
    else
      let r := spanUnit cs
      (c :: r.1, r.2)

/-- The loop `for s != ""` of `time.ParseDuration`, `d` the sum so far as a `uint64`. Every
round consumes a byte, so `fuel` of the length of `s` is never used up. -/
def parseDurationLoop : Nat → List Nat → Nat → Except DurationError Nat
  | _, [], d => Except.ok d
  | 0, _ :: _, _ => Except.error DurationError.invalidDuration
  | fuel + 1, c :: cs, d =>
    if ¬ (c = 46 ∨ isDigit c) then Except.error DurationError.invalidDuration
    else
      match leadingInt (c :: cs) 0 with
      | none => Except.error DurationError.invalidDuration
      | some (v, s₁) =>
        let pre := (c :: cs).length ≠ s₁.length
        let (f, scale, post, s₂) :=
          match s₁ with
          | 46 :: s' =>
            let r := leadingFraction s' 0 Float64.one false
            (r.1, r.2.1, decide (s'.length ≠ r.2.2.length), r.2.2)
          | _ => (0, Float64.one, false, s₁)
        if ¬ pre ∧ ¬ post then Except.error DurationError.invalidDuration
        else
          let (u, s₃) := spanUnit s₂
          if u = [] then Except.error DurationError.missingUnit
          else
            match unitMap u with
            | none => Except.error (DurationError.unknownUnit u)
            | some unit =>
              if v > 2 ^ 63 / unit then Except.error DurationError.invalidDuration
              else
                let v := v * unit
                let v := if f > 0 then (v + fractionNanos f unit scale) % 2 ^ 64 else v
                if f > 0 ∧ v > 2 ^ 63 then Except.error DurationError.invalidDuration
                else
                  let d := (d + v) % 2 ^ 64
                  if d > 2 ^ 63 then Except.error DurationError.invalidDuration
                  else parseDurationLoop fuel s₃ d

/-- The function `time.ParseDuration`: the duration is 0 whenever an error is returned. -/
def time.ParseDuration (s : String) : Duration × Option DurationError :=
  let b := bytes s
  let neg : Bool := match b with
    | c :: _ => c = 45
    | [] => false
  let t := match b with
    | c :: rest => if c = 45 ∨ c = 43 then rest else b
    | [] => b
  if t = [48] then (0, none)
  else if t = [] then (0, some DurationError.invalidDuration)
  else
    match parseDurationLoop t.length t 0 with
    | Except.error e => (0, some e)
    | Except.ok d =>
      if neg then (wrapInt64 (-wrapInt64 d), none)
      else if d > 2 ^ 63 - 1 then (0, some DurationError.invalidDuration)
      else (wrapInt64 d, none)

/-- A `time.Time` as the instant it denotes: nanoseconds since the zero time, January 1 of
year 1, 00:00:00 UTC (the location and the monotonic reading are left out). -/
abbrev Time := Int

/-- The zero value of `time.Time`. -/
def Time.zero : Time := 0

/-- The method `Time.IsZero`. -/
def Time.IsZero (t : Time) : Bool := decide (t = 0)

/-- The method `Time.Add`. -/
def Time.Add (t : Time) (d : Duration) : Time := t + d

/-- The method `Time.After`. -/
def Time.After (t u : Time) : Bool := decide (t > u)

/-! ## math/rand -/

/-- Outcome of a Go computation that may panic. -/
inductive Run (α : Type) where
  | ok (a : α)
  | panicked (msg : String)
  deriving DecidableEq, Repr

deriving instance DecidableEq for Except

/-- The function `rand.Intn(n)`: panics when `n <= 0`, and otherwise returns a number of
`[0, n)`; `draw` is the value the random source supplies, every number of `[0, n)` being
the result for some `draw`. -/
def rand.Intn (n : Int) (draw : Nat) : Run Int :=
  if n ≤ 0 then Run.panicked "invalid argument to Intn" else Run.ok ((draw : Int) % n)

/-- A float32 of `[0, 1)`, which is what `rand.Float32` returns: the value `mant / 2^scale`. The
floats of `[0, 1)` are the multiples of `2^-149` below one with at most 24 significant bits. -/
structure UnitFloat32 where
  mant : Nat
  scale : Nat
  mant_lt : mant < 2 ^ 24
  scale_le : scale ≤ 149
  lt_one : mant < 2 ^ scale

/-- The number a `UnitFloat32` stands for. -/
def UnitFloat32.value (r : UnitFloat32) : ℚ := (r.mant : ℚ) / 2 ^ r.scale

/-- A `UnitFloat32` as a float64 term (the mantissa is not made odd: comparisons do not
need it). -/
def UnitFloat32.toFloat64 (r : UnitFloat32) : Float64 :=
  Float64.fin false r.mant (-(r.scale : Int))

end Go

/-! # emojivoto-voting-svc/cmd/server.go -/

namespace VotingSvc

open Go

/-- The lines the two setters write with `log.Printf`, with the values printed. -/
inductive LogLine where
  | invalidFailureRate (failureRateVar : String) (using_ : Float64)
  | failureRateAboveOne (failureRateFloat : Float64)
  | parseDurationFailed (artificialDelayVar : String) (using_ : Duration)
  deriving DecidableEq, Repr

/-- The function `setFailureRateOrDefault`: `failureRateFloat` is the value behind the
pointer before the call, the result is the value behind it after the call and the lines
logged. The value `ParseFloat` returns is assigned through the pointer before the error is
looked at. -/
def setFailureRateOrDefault {ε : Type} (ParseFloat : String → Nat → Float64 × Option ε)
    (failureRateVar : String) (failureRateFloat : Float64) : Float64 × List LogLine :=
  if failureRateVar ≠ "" then
    let (failureRateFloat, err) := ParseFloat failureRateVar 32
    let log₁ :=
      if err.isSome then [LogLine.invalidFailureRate failureRateVar failureRateFloat] else []
    let log₂ :=
      if Float64.gt failureRateFloat Float64.one then
        [LogLine.failureRateAboveOne failureRateFloat]
      else []
    (failureRateFloat, log₁ ++ log₂)
  else (failureRateFloat, [])

/-- The function `setArtificialDelayOrDefault`, in the same form. -/
def setArtificialDelayOrDefault {ε : Type} (ParseDuration : String → Duration × Option ε)
    (artificialDelayVar : String) (artificialDelayDuration : Duration) :
    Duration × List LogLine :=
  if artificialDelayVar ≠ "" then
    let (artificialDelayDuration, err) := ParseDuration artificialDelayVar
    let log :=
      if err.isSome then
        [LogLine.parseDurationFailed artificialDelayVar artificialDelayDuration]
      else []
    (artificialDelayDuration, log)
  else (artificialDelayDuration, [])

/-- Initial value of the package variable `failureRateFloat`. -/
def failureRateFloat : Float64 := Float64.zero

/-- Initial value of the package variable `artificialDelayDuration`. -/
def artificialDelayDuration : Duration := (time.ParseDuration "0ms").1

/-- The failure rate and the delay that `main` hands to `api.NewGrpServer`. -/
structure GrpServerArgs where
  failureRate : Float64
  artificialDelayDuration : Duration
  deriving DecidableEq, Repr

/-- The part of `main` that configures fault injection: both setters run on the package
variables, then `api.NewGrpServer(grpcServer, poll, float32(failureRateFloat),
artificialDelayDuration)`. -/
def main.grpServerArgs (failureRateVar artificialDelayVar : String) : GrpServerArgs :=
  let rate := (setFailureRateOrDefault strconv.ParseFloat failureRateVar failureRateFloat).1
  let delay :=
    (setArtificialDelayOrDefault time.ParseDuration artificialDelayVar artificialDelayDuration).1
  { failureRate := rate.toFloat32, artificialDelayDuration := delay }

/-- A float64 lies in `[0.0, 1.0]`. -/
def inUnitRange (x : Float64) : Bool := Float64.le Float64.zero x && Float64.le x Float64.one

end VotingSvc

/-! # emojivoto-web/cmd/vote-bot/main.go -/

namespace VoteBot

open Go

/-- The variable `timeToLive`: `strconv.Atoi(os.Getenv("TTL"))` with the error dropped. -/
def timeToLive {ε : Type} (Atoi : String → Int × Option ε) (ttl : String) : Int :=
  (Atoi ttl).1

/-- The variable `deadline`, `now` being `time.Now()` at start-up: the zero time unless
`timeToLive != 0`, and then `now` plus `time.Second * time.Duration(timeToLive)`, a product
of 64-bit integers. -/
def deadline (timeToLive : Int) (now : Time) : Time :=
  if timeToLive ≠ 0 then Time.Add now (wrapInt64 (time.Second * timeToLive)) else Time.zero

/-- The variable `requestRate`: `strconv.Atoi(os.Getenv("REQUEST_RATE"))` with the error
dropped, raised to 1 when below 1. -/
def requestRate {ε : Type} (Atoi : String → Int × Option ε) (rate : String) : Int :=
  let requestRate := (Atoi rate).1
  if requestRate < 1 then 1 else requestRate

/-- The test at the head of the loop: the deadline is set and `time.Now()` is after it. -/
def deadlineReached (deadline now : Time) : Bool :=
  !Time.IsZero deadline && Time.After now deadline

/-- The argument of `time.Sleep`: `time.Second / time.Duration(requestRate)`, a division of
64-bit integers that panics on a zero divisor. -/
def sleepInterval (requestRate : Int) : Run Duration :=
  if requestRate = 0 then Run.panicked "integer divide by zero"
  else Run.ok (wrapInt64 (Int.tdiv time.Second requestRate))

/-- The type `emoji`. -/
structure emoji where
  Shortcode : String
  deriving DecidableEq, Repr

/-- What the calls of `shortcodes` into net/http, ioutil and encoding/json come to: a failed
request, a failed read of the body, a failed decoding, or the decoded `[]*emoji`, where a
JSON `null` element is a nil pointer. -/
inductive ListResponse where
  | doFailed (err : String)
  | readFailed (err : String)
  | unmarshalFailed (err : String)
  | decoded (emojis : List (Option emoji))
  deriving DecidableEq, Repr

/-- The loop `for i, e := range emojis { shortcodes[i] = e.Shortcode }`. -/
def collectShortcodes : List (Option emoji) → Run (List String)
  | [] => Run.ok []
  | none :: _ => Run.panicked "invalid memory address or nil pointer dereference"
  | some e :: rest =>
    match collectShortcodes rest with
    | Run.ok l => Run.ok (e.Shortcode :: l)
    | Run.panicked msg => Run.panicked msg

/-- The function `shortcodes`. -/
def shortcodes (resp : ListResponse) : Run (Except String (List String)) :=
  match resp with
  | ListResponse.doFailed err => Run.ok (Except.error err)
  | ListResponse.readFailed err => Run.ok (Except.error err)
  | ListResponse.unmarshalFailed err => Run.ok (Except.error err)
  | ListResponse.decoded emojis =>
    match collectShortcodes emojis with
    | Run.ok l => Run.ok (Except.ok l)
    | Run.panicked msg => Run.panicked msg

/-- The constant `0.15` in `probability < 0.15`, converted to float32 as the comparison with
a float32 requires. -/
def doughnutThreshold : Float64 := (roundFloat32 false 15 100).1

/-- The statement `switch` under "Cast a vote": the shortcode passed to `vote`, for the drawn
`probability` and the number `draw` behind `rand.Intn`. Indexing past the end panics. -/
def castVote (shortcodes : List String) (probability : UnitFloat32) (draw : Nat) : Run String :=
  if Float64.lt probability.toFloat64 doughnutThreshold then Run.ok ":doughnut:"
  else
    match rand.Intn shortcodes.length draw with
    | Run.panicked msg => Run.panicked msg
    | Run.ok i =>
      if i < 0 then Run.panicked "index out of range"
      else
        match shortcodes[i.toNat]? with
        | some random => Run.ok random
        | none => Run.panicked "index out of range"

/-- How one round of the loop of `main` ends. -/
inductive Step where
  | exited
  | skipped (err : String)
  | voted (shortcode : String)
  deriving DecidableEq, Repr

/-- One round of the loop `for` of `main`: the deadline test, the sleep, the fetch of the
shortcodes and the vote. `now` is `time.Now()` at the test, `resp` the answer to the list
request, `probability` and `draw` the two random draws. -/
def loopBody (requestRate : Int) (deadline now : Time) (resp : ListResponse)
    (probability : UnitFloat32) (draw : Nat) : Run Step :=
  if deadlineReached deadline now then Run.ok Step.exited
  else
    match sleepInterval requestRate with
    | Run.panicked msg => Run.panicked msg
    | Run.ok _ =>
      match shortcodes resp with
      | Run.panicked msg => Run.panicked msg
      | Run.ok (Except.error err) => Run.ok (Step.skipped err)
      | Run.ok (Except.ok shortcodes) =>
        match castVote shortcodes probability draw with
        | Run.panicked msg => Run.panicked msg
        | Run.ok shortcode => Run.ok (Step.voted shortcode)

end VoteBot

/-! # The fault-injection layer and the tally store, after the specification -/

namespace Tally

/-- Modelled from the spec: the Tally Store of §4.1 (package `voting` is not among the
sources): one counter per choice that was voted for. -/
abbrev TallyStore := List (String × Nat)

/-- Modelled from the spec: `record_vote(choice)` of §4.1 (package `voting` is not among the
sources): increments the counter for `choice`, creating it at value 1 if absent. -/
def record_vote : TallyStore → String → TallyStore
  | [], choice => [(choice, 1)]
  | (c, n) :: rest, choice =>
    if c = choice then (c, n + 1) :: rest else (c, n) :: record_vote rest choice

/-- Modelled from the spec: the ResultEntry of §3 (package `voting` is not among the sources):
a choice with its counter and its share of the total. -/
structure ResultEntry where
  choice : String
  count : Nat
  share : ℚ
  deriving DecidableEq

/-- Modelled from the spec: the order of `results()` in §4.1 (package `voting` is not among
the sources): descending count, ties broken by ascending choice. -/
def ResultEntry.before (a b : ResultEntry) : Bool :=
  decide (a.count > b.count) || (decide (a.count = b.count) && decide (a.choice ≤ b.choice))

/-- Modelled from the spec: `results()` of §4.1 (package `voting` is not among the sources):
all known choices with count and share (count / total, 0 when total is 0), in order. -/
def results (store : TallyStore) : List ResultEntry :=
  let total := (store.map Prod.snd).sum
  let entry (e : String × Nat) : ResultEntry :=
    { choice := e.1, count := e.2, share := if total = 0 then 0 else (e.2 : ℚ) / total }
  (store.map entry).mergeSort ResultEntry.before

/-- Modelled from the spec: the FaultConfig of §3 (package `api` is not among the sources):
a failure probability `p ∈ [0.0, 1.0]` and a fixed artificial delay `d ≥ 0`. -/
structure FaultConfig where
  p : ℚ
  d : ℚ
  p_mem : 0 ≤ p ∧ p ≤ 1
  d_nonneg : 0 ≤ d

/-- Modelled from the spec: what a call through the layer comes to (package `api` is not
among the sources): the synthetic failure, or the outcome of the wrapped operation. -/
inductive Outcome (α : Type) where
  | InjectedFailure
  | returned (a : α)
  deriving DecidableEq

/-- Modelled from the spec: the record of one `invoke` (package `api` is not among the
sources): the outcome, the store afterwards, whether the wrapped operation was invoked, and
for how long the call was suspended. -/
structure Invocation (α : Type) where
  outcome : Outcome α
  store : TallyStore
  delegated : Bool
  suspended : ℚ

/-- Modelled from the spec: `invoke(op, faultConfig)` of §4.2 (package `api` is not among the
sources), for the drawn `r ∈ [0,1)`: if `r < faultConfig.p` the synthetic failure, without
invoking the wrapped operation; otherwise a suspension of `d` if `d > 0`, then the wrapped
operation, its outcome returned unchanged. -/
def invoke {α : Type} (op : TallyStore → TallyStore × α) (faultConfig : FaultConfig) (r : ℚ)
    (store : TallyStore) : Invocation α :=
  if r < faultConfig.p then
    { outcome := Outcome.InjectedFailure, store := store, delegated := false, suspended := 0 }
  else
    let res := op store
    { outcome := Outcome.returned res.2, store := res.1, delegated := true,
      suspended := if faultConfig.d > 0 then faultConfig.d else 0 }

/-- Modelled from the spec: `CastVote(choice)` of §4.3 (package `api` is not among the
sources): `record_vote` behind the fault-injection layer. -/
def CastVote (choice : String) (faultConfig : FaultConfig) (r : ℚ) (store : TallyStore) :
    Invocation Unit :=
  invoke (fun st => (record_vote st choice, ())) faultConfig r store

/-- Modelled from the spec: `GetResults()` of §4.3 (package `api` is not among the sources):
`results` behind the fault-injection layer. -/
def GetResults (faultConfig : FaultConfig) (r : ℚ) (store : TallyStore) :
    Invocation (List ResultEntry) :=
  invoke (fun st => (st, results st)) faultConfig r store

end Tally

/-! # Theorems -/

/-! ## The library functions on their error paths -/

namespace Go

/-- What `strconv.ParseInt(s, 10, 0)` returns with an error: 0 with `ErrSyntax`, the largest
or the smallest 64-bit integer with `ErrRange`. -/
theorem ParseInt10_error_value (s : List Nat) :
    (ParseInt10 s 0).2 = none ∨
    ParseInt10 s 0 = (0, some NumError.ErrSyntax) ∨
    ParseInt10 s 0 = (9223372036854775807, some NumError.ErrRange) ∨
    ParseInt10 s 0 = (-9223372036854775808, some NumError.ErrRange) := by
  unfold ParseInt10
  split
  · simp
  · simp only []
    split
    · simp
    · simp only [IntSize, if_true]
      split
      · right; right; left
        norm_num
      · split
        · right; right; right
          norm_num
        · left; rfl

/-- What `strconv.Atoi` returns with an error: 0 with `ErrSyntax`, the largest or the
smallest `int` with `ErrRange`. -/
theorem Atoi_error_value (s : String) :
    (strconv.Atoi s).2 = none ∨
    strconv.Atoi s = (0, some NumError.ErrSyntax) ∨
    strconv.Atoi s = (9223372036854775807, some NumError.ErrRange) ∨
    strconv.Atoi s = (-9223372036854775808, some NumError.ErrRange) := by
  unfold strconv.Atoi
  simp only []
  split
  · split
    · simp
    · rename_i c rest _
      by_cases hs : c = 45 ∨ c = 43
      · by_cases hr : rest = []
        · simp [hs, hr]
        · cases h : atoiFast rest 0 <;> simp [hs, hr, h]
      · cases h : atoiFast (bytes s) 0 <;> simp [hs, h]
  · exact ParseInt10_error_value _

/-- Rounding to float32 raises the overflow flag only with an infinity. -/
theorem roundFloat32_overflow (neg : Bool) (num den : Nat) :
    (roundFloat32 neg num den).2 = false ∨ roundFloat32 neg num den = (Float64.Inf neg, true) := by
  unfold roundFloat32
  simp only []
  split <;> simp

/-- Rounding to float64 raises the overflow flag only with an infinity. -/
theorem roundFloat64_overflow (neg : Bool) (num den : Nat) :
    (roundFloat64 neg num den).2 = false ∨ roundFloat64 neg num den = (Float64.Inf neg, true) := by
  unfold roundFloat64
  simp only []
  split <;> simp

/-- What `parseFloatPrefix` returns with an error. -/
theorem parseFloatPrefix_error_value (s : List Nat) (bitSize : Nat) :
    (parseFloatPrefix s bitSize).2.2 = none ∨
    ((parseFloatPrefix s bitSize).1 = Float64.zero ∧
      (parseFloatPrefix s bitSize).2.2 = some NumError.ErrSyntax) ∨
    ∃ neg, (parseFloatPrefix s bitSize).1 = Float64.Inf neg ∧
      (parseFloatPrefix s bitSize).2.2 = some NumError.ErrRange := by
  unfold parseFloatPrefix
  split
  · simp
  · simp only []
    split
    · simp
    · generalize (if (readFloat s).mantissa = 0 then ((0 : Nat), (1 : Nat))
          else if (readFloat s).hex = true then scaleFrac (readFloat s).mantissa 1 (readFloat s).exp
          else if 0 ≤ (readFloat s).exp then ((readFloat s).mantissa * 10 ^ (readFloat s).exp.toNat, 1)
          else ((readFloat s).mantissa, 10 ^ (-(readFloat s).exp).toNat)) = frac
      split
      · rcases roundFloat32_overflow (readFloat s).neg frac.1 frac.2 with h | h
        · left
          simp only [h]
          simp
        · right; right
          exact ⟨(readFloat s).neg, by simp only [h], by simp only [h]; simp⟩
      · rcases roundFloat64_overflow (readFloat s).neg frac.1 frac.2 with h | h
        · left
          simp only [h]
          simp
        · right; right
          exact ⟨(readFloat s).neg, by simp only [h], by simp only [h]; simp⟩

/-- What `strconv.ParseFloat` returns with an error: 0 with `ErrSyntax`, an infinity with
`ErrRange`. -/
theorem ParseFloat_error_value (s : String) (bitSize : Nat) :
    (strconv.ParseFloat s bitSize).2 = none ∨
    strconv.ParseFloat s bitSize = (Float64.zero, some NumError.ErrSyntax) ∨
    ∃ neg, strconv.ParseFloat s bitSize = (Float64.Inf neg, some NumError.ErrRange) := by
  unfold strconv.ParseFloat
  simp only []
  have := parseFloatPrefix_error_value (bytes s) bitSize
  rcases h : parseFloatPrefix (bytes s) bitSize with ⟨f, n, err⟩
  rw [h] at this
  simp only at this
  split
  · simp
  · rcases this with h1 | ⟨h1, h2⟩ | ⟨neg, h1, h2⟩
    · left; exact h1
    · right; left; rw [h1, h2]
    · right; right; exact ⟨neg, by rw [h1, h2]⟩

/-- The duration `time.ParseDuration` returns with an error is 0. -/
theorem ParseDuration_error_zero (s : String) :
    (time.ParseDuration s).2 = none ∨ (time.ParseDuration s).1 = 0 := by
  unfold time.ParseDuration
  simp only []
  split
  · simp
  · split
    · simp
    · split
      · simp
      · split
        · simp
        · split <;> simp

end Go

/-! ## The voting service -/

namespace VotingSvc

open Go

/-- C5: an empty FAILURE_RATE leaves the failure rate as it was and an empty ARTIFICIAL_DELAY
leaves the delay as it was, whatever the parsers are and nothing being logged; with both
variables unset `main` hands the failure rate 0.0 and the delay 0 to the server. -/
theorem empty_settings_keep_defaults :
    (∀ (ε : Type) (ParseFloat : String → Nat → Float64 × Option ε) (prior : Float64),
        setFailureRateOrDefault ParseFloat "" prior = (prior, [])) ∧
    (∀ (ε : Type) (ParseDuration : String → Duration × Option ε) (prior : Duration),
        setArtificialDelayOrDefault ParseDuration "" prior = (prior, [])) ∧
    main.grpServerArgs "" "" = { failureRate := Float64.zero, artificialDelayDuration := 0 } := by
  refine ⟨fun ε pf prior => ?_, fun ε pd prior => ?_, by decide⟩
  · simp [setFailureRateOrDefault]
  · simp [setArtificialDelayOrDefault]

/-- C1, as stated, fails: for FAILURE_RATE "2" the parse succeeds with the value 2, and the
failure rate in effect after the call from the default 0.0 is 2, outside of [0.0, 1.0]; it is
the rate that `main` hands to the server. -/
theorem failure_rate_two_not_clamped :
    strconv.ParseFloat "2" 32 = (Float64.fin false 1 1, none) ∧
    (setFailureRateOrDefault strconv.ParseFloat "2" failureRateFloat).1 = Float64.fin false 1 1 ∧
    inUnitRange (setFailureRateOrDefault strconv.ParseFloat "2" failureRateFloat).1 = false ∧
    (main.grpServerArgs "2" "").failureRate = Float64.fin false 1 1 := by
  decide

/-- C1, amended: for every FAILURE_RATE string that is empty or that `ParseFloat` parses
without error, the failure rate in effect after the call from the default 0.0 is 0.0 for the
empty string and otherwise the parsed value, stored as it is and not clamped; so it lies in
[0.0, 1.0] exactly when the string is empty or the parsed value lies there. -/
theorem failure_rate_stored_as_parsed {ε : Type}
    (ParseFloat : String → Nat → Float64 × Option ε) (failureRateVar : String)
    (_hok : failureRateVar = "" ∨ (ParseFloat failureRateVar 32).2 = none) :
    (setFailureRateOrDefault ParseFloat failureRateVar failureRateFloat).1
      = (if failureRateVar = "" then Float64.zero else (ParseFloat failureRateVar 32).1) ∧
    (inUnitRange (setFailureRateOrDefault ParseFloat failureRateVar failureRateFloat).1 = true ↔
      (failureRateVar = "" ∨ inUnitRange (ParseFloat failureRateVar 32).1 = true)) := by
  by_cases h : failureRateVar = ""
  · subst h
    simp [setFailureRateOrDefault, failureRateFloat]
    decide
  · simp [setFailureRateOrDefault, h]

/-- Witness of the amended C1 at FAILURE_RATE "2" with the parser of Go: the parse succeeds
and the value 2 is stored. -/
theorem failure_rate_stored_as_parsed_witness :
    (("2" : String) = "" ∨ (strconv.ParseFloat "2" 32).2 = none) ∧
    (setFailureRateOrDefault strconv.ParseFloat "2" failureRateFloat).1
      = (if ("2" : String) = "" then Float64.zero else (strconv.ParseFloat "2" 32).1) ∧
    (inUnitRange (setFailureRateOrDefault strconv.ParseFloat "2" failureRateFloat).1 = true ↔
      (("2" : String) = "" ∨ inUnitRange (strconv.ParseFloat "2" 32).1 = true)) :=
  ⟨by decide, failure_rate_stored_as_parsed strconv.ParseFloat "2" (by decide)⟩

set_option maxRecDepth 100000 in
/-- C2 fails on the code: whatever the parser and the prior value, after a call with a
non-empty string the failure rate is the value the parser returned, error or not; with
`strconv.ParseFloat` that is 0.0 or an infinity whenever the parse fails, whatever the prior
value. FAILURE_RATE "1e39" does not parse (`ErrRange`), and the failure rate, 0.0 before the call,
is +Inf after it; FAILURE_RATE "abc" does not parse (`ErrSyntax`), and a failure rate of 0.5
before the call is 0.0 after it. -/
theorem failure_rate_overwritten_on_parse_error :
    (∀ (ε : Type) (ParseFloat : String → Nat → Float64 × Option ε) (s : String)
        (prior : Float64), (setFailureRateOrDefault ParseFloat s prior).1
          = if s = "" then prior else (ParseFloat s 32).1) ∧
    (∀ (s : String) (prior : Float64), s = "" ∨ (strconv.ParseFloat s 32).2 = none ∨
        (setFailureRateOrDefault strconv.ParseFloat s prior).1 = Float64.zero ∨
        ∃ neg, (setFailureRateOrDefault strconv.ParseFloat s prior).1 = Float64.Inf neg) ∧
    (strconv.ParseFloat "1e39" 32).2 = some NumError.ErrRange ∧
    (setFailureRateOrDefault strconv.ParseFloat "1e39" failureRateFloat).1 = Float64.Inf false ∧
    (strconv.ParseFloat "abc" 32).2 = some NumError.ErrSyntax ∧
    (setFailureRateOrDefault strconv.ParseFloat "abc" (Float64.fin false 1 (-1))).1
      = Float64.zero := by
  have hgen : ∀ (ε : Type) (ParseFloat : String → Nat → Float64 × Option ε) (s : String)
      (prior : Float64), (setFailureRateOrDefault ParseFloat s prior).1
        = if s = "" then prior else (ParseFloat s 32).1 := by
    intro ε pf s prior
    by_cases h : s = "" <;> simp [setFailureRateOrDefault, h]
  refine ⟨hgen, fun s prior => ?_, by decide, by decide, by decide, by decide⟩
  by_cases h : s = ""
  · exact Or.inl h
  · rw [hgen, if_neg h]
    rcases ParseFloat_error_value s 32 with h1 | h1 | ⟨neg, h1⟩
    · exact Or.inr (Or.inl h1)
    · exact Or.inr (Or.inr (Or.inl (by rw [h1])))
    · exact Or.inr (Or.inr (Or.inr ⟨neg, by rw [h1]⟩))

/-- C3, as stated, fails: ARTIFICIAL_DELAY "abc" does not parse, `time.ParseDuration` returns
0 with the error, and a delay of 5ms before the call is 0 after it, not 5ms. -/
theorem delay_prior_not_kept :
    time.ParseDuration "abc" = (0, some DurationError.invalidDuration) ∧
    (setArtificialDelayOrDefault time.ParseDuration "abc" 5000000).1 = 0 ∧
    (setArtificialDelayOrDefault time.ParseDuration "abc" 5000000).1 ≠ 5000000 := by
  decide

/-- C3, amended: for the prior value 0ms, the default that `main` passes, and every non-empty
ARTIFICIAL_DELAY string on which `time.ParseDuration` fails, the delay after the call equals
the value it held before the call; the call returns, with the line about the failed parse
logged. -/
theorem delay_kept_from_default_on_parse_error (artificialDelayVar : String)
    (hne : artificialDelayVar ≠ "") (herr : (time.ParseDuration artificialDelayVar).2 ≠ none) :
    artificialDelayDuration = 0 ∧
    setArtificialDelayOrDefault time.ParseDuration artificialDelayVar artificialDelayDuration
      = (artificialDelayDuration,
          [LogLine.parseDurationFailed artificialDelayVar artificialDelayDuration]) := by
  have h0 : artificialDelayDuration = 0 := by decide
  have hz : (time.ParseDuration artificialDelayVar).1 = 0 := by
    rcases ParseDuration_error_zero artificialDelayVar with h | h
    · exact absurd h herr
    · exact h
  have hs : (time.ParseDuration artificialDelayVar).2.isSome = true := by
    cases h : (time.ParseDuration artificialDelayVar).2 with
    | none => exact absurd h herr
    | some e => rfl
  refine ⟨h0, ?_⟩
  simp [setArtificialDelayOrDefault, hne, h0, hz, hs]

/-- Witness of the amended C3 at ARTIFICIAL_DELAY "abc". -/
theorem delay_kept_from_default_on_parse_error_witness :
    ("abc" : String) ≠ "" ∧ (time.ParseDuration "abc").2 ≠ none ∧
    setArtificialDelayOrDefault time.ParseDuration "abc" artificialDelayDuration
      = (artificialDelayDuration,
          [LogLine.parseDurationFailed "abc" artificialDelayDuration]) :=
  ⟨by decide, by decide,
   (delay_kept_from_default_on_parse_error "abc" (by decide) (by decide)).2⟩

/-- C4, as stated, fails: ARTIFICIAL_DELAY "-5s" parses without error to minus five seconds,
and that negative delay is in effect after the call from the default 0ms; it is the delay
that `main` hands to the server. -/
theorem negative_delay_kept :
    time.ParseDuration "-5s" = (-5000000000, none) ∧
    (setArtificialDelayOrDefault time.ParseDuration "-5s" artificialDelayDuration).1
      = -5000000000 ∧
    ¬ (0 ≤ (setArtificialDelayOrDefault time.ParseDuration "-5s" artificialDelayDuration).1) ∧
    (main.grpServerArgs "" "-5s").artificialDelayDuration = -5000000000 := by
  decide

/-- C4, amended: from the default 0ms the delay in effect after the call is 0 for the empty
string and otherwise the duration `ParseDuration` returned, negative ones included; it is
`≥ 0` exactly when the string is empty or the returned duration is `≥ 0`. -/
theorem delay_is_parsed_value {ε : Type} (ParseDuration : String → Duration × Option ε)
    (artificialDelayVar : String) :
    (setArtificialDelayOrDefault ParseDuration artificialDelayVar artificialDelayDuration).1
      = (if artificialDelayVar = "" then 0 else (ParseDuration artificialDelayVar).1) ∧
    (0 ≤ (setArtificialDelayOrDefault ParseDuration artificialDelayVar artificialDelayDuration).1
      ↔ (artificialDelayVar = "" ∨ 0 ≤ (ParseDuration artificialDelayVar).1)) := by
  have h0 : artificialDelayDuration = 0 := by decide
  by_cases h : artificialDelayVar = ""
  · subst h
    simp [setArtificialDelayOrDefault, h0]
  · simp [setArtificialDelayOrDefault, h]

end VotingSvc

/-! ## The vote-bot: settings -/

namespace VoteBot

open Go

/-- C7 fails on the code: the request rate is the larger of 1 and the number `Atoi`
returned, error or not; with `strconv.Atoi` it is 1, or the valid integer read, or the
largest `int` after a range error. REQUEST_RATE "9223372036854775808" is not a valid integer
(`Atoi` returns `ErrRange`), yet the request rate is 9223372036854775807 instead of 1, and
the sleep interval is 0. -/
theorem request_rate_out_of_range_not_ignored :
    (∀ (ε : Type) (Atoi : String → Int × Option ε) (s : String),
        requestRate Atoi s = max 1 (Atoi s).1) ∧
    (∀ s : String, requestRate strconv.Atoi s = 1 ∨
        ((strconv.Atoi s).2 = none ∧ requestRate strconv.Atoi s = (strconv.Atoi s).1) ∨
        (strconv.Atoi s = (9223372036854775807, some NumError.ErrRange) ∧
          requestRate strconv.Atoi s = 9223372036854775807)) ∧
    strconv.Atoi "9223372036854775808" = (9223372036854775807, some NumError.ErrRange) ∧
    requestRate strconv.Atoi "9223372036854775808" = 9223372036854775807 ∧
    sleepInterval (requestRate strconv.Atoi "9223372036854775808") = Run.ok 0 := by
  have hgen : ∀ (ε : Type) (Atoi : String → Int × Option ε) (s : String),
      requestRate Atoi s = max 1 (Atoi s).1 := by
    intro ε atoi s
    unfold requestRate
    simp only
    split <;> omega
  refine ⟨hgen, fun s => ?_, by decide, by decide, by decide⟩
  rw [hgen]
  rcases Atoi_error_value s with h | h | h | h
  · by_cases h1 : (strconv.Atoi s).1 < 1
    · exact Or.inl (by omega)
    · exact Or.inr (Or.inl ⟨h, by omega⟩)
  · exact Or.inl (by rw [h]; decide)
  · exact Or.inr (Or.inr ⟨h, by rw [h]; decide⟩)
  · exact Or.inl (by rw [h]; decide)

/-- C8 fails on the code: TTL "9223372036854775808" is not a valid integer (`Atoi` returns
`ErrRange` with the largest `int`), yet a deadline is set: the product with `time.Second`
wraps to minus one second, so the deadline is one second before start-up, whatever the time
of start-up, and the test at the head of the loop holds as soon as the deadline is not the
zero time; for a start-up on 4 November 2026 the first round of the loop ends the bot. On
every string: after a syntax error of `strconv.Atoi` no deadline is set, after a range error
the deadline is the time of start-up or one second before it. -/
theorem ttl_out_of_range_sets_deadline :
    strconv.Atoi "9223372036854775808" = (9223372036854775807, some NumError.ErrRange) ∧
    (∀ now : Time, deadline (timeToLive strconv.Atoi "9223372036854775808") now
        = now - 1000000000) ∧
    (∀ now later : Time,
      deadlineReached (deadline (timeToLive strconv.Atoi "9223372036854775808") now) later
        = (!decide (now = 1000000000) && decide (later > now - 1000000000))) ∧
    (∀ (s : String) (now : Time), (strconv.Atoi s).2 = none ∨
        (strconv.Atoi s = (0, some NumError.ErrSyntax) ∧
          deadline (timeToLive strconv.Atoi s) now = Time.zero) ∨
        ((strconv.Atoi s).2 = some NumError.ErrRange ∧
          (deadline (timeToLive strconv.Atoi s) now = now - 1000000000 ∨
            deadline (timeToLive strconv.Atoi s) now = now))) ∧
    deadlineReached (deadline (timeToLive strconv.Atoi "9223372036854775808")
        63929347200000000000) 63929347200000000000 = true := by
  have h : timeToLive strconv.Atoi "9223372036854775808" = 9223372036854775807 := by decide
  have h2 : wrapInt64 (time.Second * 9223372036854775807) = -1000000000 := by decide
  have hd : ∀ now : Time, deadline (timeToLive strconv.Atoi "9223372036854775808") now
      = now - 1000000000 := by
    intro now
    rw [h]
    simp only [deadline, Time.Add, h2]
    simp
    rfl
  have h3 : wrapInt64 (time.Second * -9223372036854775808) = 0 := by decide
  refine ⟨by decide, hd, fun now later => ?_, fun s now => ?_, by decide⟩
  · rw [hd]
    simp only [deadlineReached, Time.IsZero, Time.After]
    have e : decide (now - 1000000000 = (0 : Int)) = decide (now = 1000000000) :=
      decide_eq_decide.2 (sub_eq_zero (a := (now : Int)) (b := 1000000000))
    rw [e]
  · rcases Atoi_error_value s with h | h | h | h
    · exact Or.inl h
    · exact Or.inr (Or.inl ⟨h, by simp [deadline, timeToLive, h]⟩)
    · refine Or.inr (Or.inr ⟨by rw [h], Or.inl ?_⟩)
      simp only [deadline, timeToLive, h, Time.Add, h2]
      simp
      rfl
    · refine Or.inr (Or.inr ⟨by rw [h], Or.inr ?_⟩)
      simp only [deadline, timeToLive, h, Time.Add, h3]
      simp

/-- C10 fails on the code: for the catalog response `[]`, `shortcodes` returns the empty
list without error, and the vote then panics in `rand.Intn(0)` unless the drawn probability
is below the doughnut threshold; with a drawn probability of 0.5 the round of the loop
panics. -/
theorem empty_catalog_panics :
    shortcodes (ListResponse.decoded []) = Run.ok (Except.ok []) ∧
    (∀ (probability : UnitFloat32) (draw : Nat), castVote [] probability draw
        = if Float64.lt probability.toFloat64 doughnutThreshold then Run.ok ":doughnut:"
          else Run.panicked "invalid argument to Intn") ∧
    loopBody 1 Time.zero 63929347200000000000 (ListResponse.decoded [])
        { mant := 1, scale := 1, mant_lt := by decide, scale_le := by decide,
          lt_one := by decide } 7
      = Run.panicked "invalid argument to Intn" := by
  refine ⟨by decide, fun probability draw => ?_, by decide⟩
  simp [castVote, rand.Intn]

end VoteBot

/-! ## The fault-injection layer -/

namespace Tally

/-- C6: with failure probability p = 1.0, for every drawn r of [0,1), every store and every
choice, CastVote and GetResults both return the injected failure, neither invokes the
wrapped tally operation, and the counters after the call are the counters before it; the
same holds of the layer around any operation, whatever that operation would do to the
store. -/
theorem injected_failure_at_p_one (faultConfig : FaultConfig) (hp : faultConfig.p = 1)
    (r : ℚ) (_h0 : 0 ≤ r) (h1 : r < 1) (store : TallyStore) (choice : String) :
    (CastVote choice faultConfig r store).outcome = Outcome.InjectedFailure ∧
    (CastVote choice faultConfig r store).delegated = false ∧
    (CastVote choice faultConfig r store).store = store ∧
    (GetResults faultConfig r store).outcome = Outcome.InjectedFailure ∧
    (GetResults faultConfig r store).delegated = false ∧
    (GetResults faultConfig r store).store = store ∧
    (∀ (α : Type) (op : TallyStore → TallyStore × α),
      (invoke op faultConfig r store).outcome = Outcome.InjectedFailure ∧
      (invoke op faultConfig r store).store = store) := by
  have hr : r < faultConfig.p := by rw [hp]; exact h1
  simp [CastVote, GetResults, invoke, hr]

/-- Witness of C6: p = 1.0, the draw 1/2, a store with three votes for doughnut. -/
theorem injected_failure_at_p_one_witness :
    ((0 : ℚ) ≤ 1 / 2 ∧ (1 / 2 : ℚ) < 1) ∧
    (CastVote "heart" { p := 1, d := 0, p_mem := by norm_num, d_nonneg := le_refl 0 } (1 / 2)
        [("doughnut", 3)]).outcome = Outcome.InjectedFailure ∧
    (CastVote "heart" { p := 1, d := 0, p_mem := by norm_num, d_nonneg := le_refl 0 } (1 / 2)
        [("doughnut", 3)]).store = [("doughnut", 3)] :=
  have h := injected_failure_at_p_one
    { p := 1, d := 0, p_mem := by norm_num, d_nonneg := le_refl 0 } rfl (1 / 2)
    (by norm_num) (by norm_num) [("doughnut", 3)] "heart"
  ⟨⟨by norm_num, by norm_num⟩, h.1, h.2.2.1⟩

end Tally

/-! ## The vote-bot: the vote cast in one round -/

namespace VoteBot

open Go

/-- The threshold of the doughnut vote is the float32 nearest to 0.15. -/
theorem doughnutThreshold_eq : doughnutThreshold = Float64.fin false 5033165 (-25) := by
  decide

/-- A drawn probability lies in [0, 1). -/
theorem UnitFloat32_value_mem (r : UnitFloat32) : 0 ≤ r.value ∧ r.value < 1 := by
  have hpos : (0 : ℚ) < 2 ^ r.scale := by positivity
  refine ⟨by unfold UnitFloat32.value; positivity, ?_⟩
  unfold UnitFloat32.value
  rw [div_lt_one hpos]
  exact_mod_cast r.lt_one

/-- The comparison `probability < 0.15` of float32 values in terms of naturals. -/
theorem lt_threshold_iff_nat (r : UnitFloat32) :
    Float64.lt r.toFloat64 doughnutThreshold = true ↔ 20 * r.mant < 3 * 2 ^ r.scale := by
  obtain ⟨m, k, hm, hk, hlt⟩ := r
  rw [doughnutThreshold_eq]
  simp only [UnitFloat32.toFloat64, Float64.lt, Float64.scaled, decide_eq_true_eq]
  by_cases hk26 : k ≤ 26
  · interval_cases k <;> simp <;> omega
  · have h27 : 27 ≤ k := by omega
    have hmin : min (-(k : Int)) (-25) = -(k : Int) := by omega
    rw [hmin]
    have e1 : (-(k : Int) - -(k : Int)).toNat = 0 := by omega
    have e2 : ((-25 : Int) - -(k : Int)).toNat = (k - 27) + 2 := by omega
    have e3 : k = (k - 27) + 27 := by omega
    rw [e1, e2]
    have hpi : (0 : Int) < 2 ^ (k - 27) := by positivity
    constructor
    · intro _
      rw [e3, pow_add]
      norm_num at hm ⊢
      nlinarith
    · intro _
      rw [pow_add]
      norm_num at hm ⊢
      have : (m : Int) < 16777216 := by exact_mod_cast hm
      nlinarith

/-- The comparison `probability < 0.15` of float32 values decides whether the drawn number is
below 0.15: there is no float32 from 0.15 up to the float32 nearest to 0.15. -/
theorem lt_threshold_iff (r : UnitFloat32) :
    Float64.lt r.toFloat64 doughnutThreshold = true ↔ r.value < 15 / 100 := by
  rw [lt_threshold_iff_nat]
  have hpos : (0 : ℚ) < 2 ^ r.scale := by positivity
  unfold UnitFloat32.value
  rw [div_lt_iff₀ hpos]
  constructor
  · intro h
    have : ((20 * r.mant : Nat) : ℚ) < ((3 * 2 ^ r.scale : Nat) : ℚ) := by exact_mod_cast h
    push_cast at this
    linarith
  · intro h
    have : ((20 * r.mant : Nat) : ℚ) < ((3 * 2 ^ r.scale : Nat) : ℚ) := by
      push_cast
      linarith
    exact_mod_cast this

/-- C9: for every drawn probability (a float32 of [0,1)), every non-empty list of fetched
shortcodes and every draw behind `rand.Intn`, the shortcode voted for is ":doughnut:" when the
probability is below 0.15, and is otherwise the element of the list at the index `i` that
`rand.Intn(len(shortcodes))` returns, with `0 ≤ i < len(shortcodes)`; it is a member of the
list. -/
theorem castVote_choice (shortcodes : List String) (hne : shortcodes ≠ [])
    (probability : UnitFloat32) (draw : Nat) :
    (probability.value < 15 / 100 →
      castVote shortcodes probability draw = Run.ok ":doughnut:") ∧
    (¬ probability.value < 15 / 100 →
      ∃ (i : Nat) (random : String),
        rand.Intn shortcodes.length draw = Run.ok (i : Int) ∧ i < shortcodes.length ∧
        shortcodes[i]? = some random ∧ random ∈ shortcodes ∧
        castVote shortcodes probability draw = Run.ok random) := by
  constructor
  · intro h
    have := (lt_threshold_iff probability).2 h
    simp [castVote, this]
  · intro h
    have hlt : Float64.lt probability.toFloat64 doughnutThreshold = false := by
      rw [← Bool.not_eq_true, lt_threshold_iff]
      exact h
    have hlen : 0 < shortcodes.length := List.length_pos.2 hne
    have hi : draw % shortcodes.length < shortcodes.length := Nat.mod_lt _ hlen
    refine ⟨draw % shortcodes.length, shortcodes[draw % shortcodes.length], ?_, hi, ?_, ?_, ?_⟩
    · have : ¬ ((shortcodes.length : Int) ≤ 0) := by omega
      simp [rand.Intn, this]
    · exact List.getElem?_eq_getElem hi
    · exact List.getElem_mem _
    · have h1 : ¬ ((shortcodes.length : Int) ≤ 0) := by omega
      have h2 : ¬ ((draw : Int) % (shortcodes.length : Int) < 0) := by
        have := Int.emod_nonneg (draw : Int) (b := (shortcodes.length : Int)) (by omega)
        omega
      have h3 : ((draw : Int) % (shortcodes.length : Int)).toNat = draw % shortcodes.length := by
        rw [← Int.natCast_mod]
        exact Int.toNat_natCast _
      simp [castVote, hlt, rand.Intn, h1, h2, h3, List.getElem?_eq_getElem hi]

/-- Witness of C9: the list of two shortcodes and the draw 7, with the probability 1/8 (a
doughnut) and with the probability 1/2 (the element at index 1). -/
theorem castVote_choice_witness :
    ([":a:", ":b:"] : List String) ≠ [] ∧
    castVote [":a:", ":b:"]
      { mant := 1, scale := 3, mant_lt := by decide, scale_le := by decide,
        lt_one := by decide } 7 = Run.ok ":doughnut:" ∧
    ∃ (i : Nat) (random : String),
      rand.Intn ([":a:", ":b:"] : List String).length 7 = Run.ok (i : Int) ∧
      i < ([":a:", ":b:"] : List String).length ∧
      ([":a:", ":b:"] : List String)[i]? = some random ∧ random ∈ [":a:", ":b:"] ∧
      castVote [":a:", ":b:"]
        { mant := 1, scale := 1, mant_lt := by decide, scale_le := by decide,
          lt_one := by decide } 7 = Run.ok random :=
  ⟨by decide,
   (castVote_choice [":a:", ":b:"] (by decide)
      { mant := 1, scale := 3, mant_lt := by decide, scale_le := by decide,
        lt_one := by decide } 7).1 (by norm_num [UnitFloat32.value]),
   (castVote_choice [":a:", ":b:"] (by decide)
      { mant := 1, scale := 1, mant_lt := by decide, scale_le := by decide,
        lt_one := by decide } 7).2 (by norm_num [UnitFloat32.value])⟩

/-- Whatever `Atoi` returns, the request rate is at least 1 and the sleep interval is
computed without a division by zero. -/
theorem requestRate_pos {ε : Type} (Atoi : String → Int × Option ε) (rate : String) :
    1 ≤ requestRate Atoi rate ∧ ∃ d, sleepInterval (requestRate Atoi rate) = Run.ok d := by
  have h : 1 ≤ requestRate Atoi rate := by
    unfold requestRate
    simp only
    split <;> omega
  have h0 : requestRate Atoi rate ≠ 0 := by omega
  exact ⟨h, wrapInt64 (Int.tdiv time.Second (requestRate Atoi rate)), by simp [sleepInterval, h0]⟩

end VoteBot
